import Mathlib

/-!
Shallow embedding of `src/watcher.py`, the nginx log watcher for a
blue/green deployment.  Pure fragments of the Python code become Lean
functions; the module-level mutable state (`last_pool`,
`last_failover_alert`, `last_error_alert`, `request_window`) becomes
explicit state passing.  `time.time()` is modelled as a rational
timestamp supplied per call, and machine floats as exact rationals.
Log lines are modelled as lists of characters.
-/

/-- Python regex class `\s` on the ASCII characters occurring in log lines. -/
def isSpaceChar (c : Char) : Bool :=
  c = ' ' || c = '\t' || c = '\n' || c = '\r' || c = '\x0b' || c = '\x0c'

/-- Characters of a string literal. -/
def strChars (s : String) : List Char := s.data

/-- Match a fixed literal at the head of the input, returning the rest. -/
def dropLit (lit : String) (l : List Char) : Option (List Char) :=
  if l.take (strChars lit).length = strChars lit then
    some (l.drop (strChars lit).length)
  else none

/-- Greedy `\S+` at the head of the input: the maximal nonempty run of
non-whitespace characters, together with the rest of the input. -/
def takeTok (l : List Char) : Option (List Char × List Char) :=
  let t := l.takeWhile (fun c => !isSpaceChar c)
  if t = [] then none else some (t, l.dropWhile (fun c => !isSpaceChar c))

/-- Greedy `\s+` at the head of the input: the maximal nonempty run of
whitespace characters, together with the rest of the input. -/
def takeWs (l : List Char) : Option (List Char × List Char) :=
  let t := l.takeWhile isSpaceChar
  if t = [] then none else some (t, l.dropWhile isSpaceChar)

/-- LOG_PATTERN (watcher.py lines 36-40) matched at one fixed position:
`pool=(\S+)\s+release=(\S+)\s+upstream_status=(\S+)`.  Because `\S` and
`\s` are complementary classes, the backtracking regex engine commits to
the maximal runs, so this deterministic reading is exact.  Returns the
`(pool, release, status)` groups. -/
def matchAt (l : List Char) : Option (List Char × List Char × List Char) :=
  match dropLit "pool=" l with
  | none => none
  | some l1 =>
  match takeTok l1 with
  | none => none
  | some (p, l2) =>
  match takeWs l2 with
  | none => none
  | some (_, l3) =>
  match dropLit "release=" l3 with
  | none => none
  | some l4 =>
  match takeTok l4 with
  | none => none
  | some (r, l5) =>
  match takeWs l5 with
  | none => none
  | some (_, l6) =>
  match dropLit "upstream_status=" l6 with
  | none => none
  | some l7 =>
  match takeTok l7 with
  | none => none
  | some (s, _) => some (p, r, s)

/-- `LOG_PATTERN.search(line)` (watcher.py line 166): the leftmost
position at which the pattern matches, scanning left to right. -/
def LOG_PATTERN_search : List Char → Option (List Char × List Char × List Char)
  | [] => none
  | c :: cs =>
    match matchAt (c :: cs) with
    | some g => some g
    | none => LOG_PATTERN_search cs

/-- Python `status_str.split(':')[-1]`: the sub-value after the last
colon (the whole string when there is no colon). -/
def lastColonPart (l : List Char) : List Char :=
  (l.reverse.takeWhile (fun c => c ≠ ':')).reverse

/-- Python `str.strip()` restricted to ASCII whitespace. -/
def pyStrip (l : List Char) : List Char :=
  ((l.dropWhile isSpaceChar).reverse.dropWhile isSpaceChar).reverse

/-- Value of a decimal digit character. -/
def digitVal (c : Char) : Option ℕ :=
  if '0' ≤ c ∧ c ≤ '9' then some (c.toNat - '0'.toNat) else none

/-- Value of a nonempty all-digit character list. -/
def digitsVal (l : List Char) : Option ℕ :=
  match l with
  | [] => none
  | _ => l.foldl (fun acc c =>
      match acc, digitVal c with
      | some a, some d => some (a * 10 + d)
      | _, _ => none) (some 0)

/-- Python `int(string)`: surrounding whitespace stripped, then an
optional sign followed by decimal digits (digit-group underscores are
not modelled; no input of this program contains them). -/
def pyInt? (l : List Char) : Option ℤ :=
  match pyStrip l with
  | '+' :: rest => (digitsVal rest).map (fun n => (n : ℤ))
  | '-' :: rest => (digitsVal rest).map (fun n => -(n : ℤ))
  | rest => (digitsVal rest).map (fun n => (n : ℤ))

/-- watcher.py lines 172-176: `int(status_str.split(':')[-1].strip())`,
defaulting to 0 when the parse fails. -/
def parsedStatus (status_str : List Char) : ℤ :=
  match pyInt? (pyStrip (lastColonPart status_str)) with
  | some v => v
  | none => 0

/-- The environment-derived configuration (watcher.py lines 17-21). -/
structure Config where
  slack_webhook : String
  error_threshold : ℚ
  window_size : ℕ
  cooldown : ℚ
  maintenance_mode : Bool
  deriving DecidableEq

/-- watcher.py lines 43-47: the alert is dropped locally unless a
webhook is configured and maintenance mode is off.  The returned Bool
says whether the message reaches the sink (the HTTP post is attempted). -/
def send_slack_alert (cfg : Config) : Bool :=
  !(cfg.slack_webhook = "" || cfg.maintenance_mode)

/-- watcher.py line 120: the count of statuses `>= 500` in the window. -/
def errorsIn (w : List ℤ) : ℕ :=
  (w.filter (fun status => 500 ≤ status)).length

/-- watcher.py line 121: `(errors / len(request_window)) * 100`. -/
def errorRate (w : List ℤ) : ℚ :=
  ((errorsIn w : ℚ) / (w.length : ℚ)) * 100

/-- Result of one `check_error_rate` call: the (possibly updated) error
alert timestamp, whether the alert fired (cooldown gate passed, message
built, `send_slack_alert` invoked, timestamp updated), and whether the
message actually reached the sink. -/
structure ErrorRateResult where
  last_error_alert : ℚ
  triggered : Bool
  sink_reached : Bool
  deriving DecidableEq

/-- watcher.py lines 113-135, with the globals passed explicitly and
`time.time()` passed as `now`. -/
def check_error_rate (cfg : Config) (w : List ℤ) (last_error_alert now : ℚ) :
    ErrorRateResult :=
  if w.length < cfg.window_size then
    { last_error_alert := last_error_alert, triggered := false, sink_reached := false }
  else if cfg.error_threshold < errorRate w then
    if cfg.cooldown < now - last_error_alert then
      { last_error_alert := now, triggered := true,
        sink_reached := send_slack_alert cfg }
    else
      { last_error_alert := last_error_alert, triggered := false, sink_reached := false }
  else
    { last_error_alert := last_error_alert, triggered := false, sink_reached := false }

/-- The breach condition of `check_error_rate` in isolation: the window
has reached capacity and the error rate strictly exceeds the threshold
(watcher.py lines 117-123, before the cooldown gate). -/
def check_breach (cfg : Config) (w : List ℤ) : Bool :=
  if w.length < cfg.window_size then false
  else decide (cfg.error_threshold < errorRate w)

/-- Result of one `detect_failover` call.  `event` marks that the
pool-change branch `current_pool != last_pool` was entered, carrying the
`(old, new)` pair; `dispatched` marks that the cooldown gate passed, so
the alert was formatted, handed to `send_slack_alert` and the timestamp
updated; `sink_reached` marks that the message reached the sink. -/
structure FailoverResult where
  last_pool : Option (List Char)
  last_failover_alert : ℚ
  event : Option (List Char × List Char)
  dispatched : Bool
  sink_reached : Bool
  deriving DecidableEq

/-- watcher.py lines 138-160, with the globals passed explicitly and
`time.time()` passed as `now`. -/
def detect_failover (cfg : Config) (last_pool : Option (List Char))
    (last_failover_alert : ℚ) (current_pool : List Char) (now : ℚ) :
    FailoverResult :=
  match last_pool with
  | none =>
    { last_pool := some current_pool, last_failover_alert := last_failover_alert,
      event := none, dispatched := false, sink_reached := false }
  | some lp =>
    if current_pool ≠ lp then
      if cfg.cooldown < now - last_failover_alert then
        { last_pool := some current_pool, last_failover_alert := now,
          event := some (lp, current_pool), dispatched := true,
          sink_reached := send_slack_alert cfg }
      else
        { last_pool := some current_pool, last_failover_alert := last_failover_alert,
          event := some (lp, current_pool), dispatched := false, sink_reached := false }
    else
      { last_pool := some lp, last_failover_alert := last_failover_alert,
        event := none, dispatched := false, sink_reached := false }

/-- `request_window.append(status)` on `deque(maxlen=cap)` (watcher.py
lines 33 and 179): append on the right, discarding from the left
whenever the length would exceed the capacity. -/
def dequeAppend (cap : ℕ) (w : List ℤ) (s : ℤ) : List ℤ :=
  let w2 := w ++ [s]
  if cap < w2.length then w2.drop (w2.length - cap) else w2

/-- The module-level mutable state of watcher.py (lines 30-33). -/
structure WatcherState where
  last_pool : Option (List Char)
  last_failover_alert : ℚ
  last_error_alert : ℚ
  request_window : List ℤ
  deriving DecidableEq

/-- Observable processing steps of one `process_log_line` call, in the
order the code performs them. -/
inductive StepEvent where
  | parsed (pool : List Char) (status : ℤ)
  | recorded (status : ℤ)
  | failoverCheck (pool : List Char)
  | errorRateCheck
  deriving DecidableEq

/-- watcher.py lines 163-190: parse the line; on a match append the
parsed status to the window, run `detect_failover` when the pool is
truthy and not the sentinel `-`, then run `check_error_rate`.  Returns
the new state and the trace of steps performed. -/
def process_log_line (cfg : Config) (st : WatcherState) (now : ℚ)
    (line : List Char) : WatcherState × List StepEvent :=
  match LOG_PATTERN_search line with
  | none => (st, [])
  | some (pool, _release, status_str) =>
    let status := parsedStatus status_str
    let w := dequeAppend cfg.window_size st.request_window status
    if pool ≠ [] ∧ pool ≠ ['-'] then
      let fr := detect_failover cfg st.last_pool st.last_failover_alert pool now
      let er := check_error_rate cfg w st.last_error_alert now
      ({ last_pool := fr.last_pool, last_failover_alert := fr.last_failover_alert,
         last_error_alert := er.last_error_alert, request_window := w },
       [StepEvent.parsed pool status, StepEvent.recorded status,
        StepEvent.failoverCheck pool, StepEvent.errorRateCheck])
    else
      let er := check_error_rate cfg w st.last_error_alert now
      ({ last_pool := st.last_pool, last_failover_alert := st.last_failover_alert,
         last_error_alert := er.last_error_alert, request_window := w },
       [StepEvent.parsed pool status, StepEvent.recorded status,
        StepEvent.errorRateCheck])

/-- The stream driver's sequential loop (watcher.py lines 228-232) over
a finite list of timestamped lines. -/
def runWatcher (cfg : Config) :
    WatcherState → List (ℚ × List Char) → WatcherState × List StepEvent
  | st, [] => (st, [])
  | st, (t, line) :: rest =>
    let step := process_log_line cfg st t line
    let next := runWatcher cfg step.1 rest
    (next.1, step.2 ++ next.2)

/-- Statuses recorded into the window, in trace order. -/
def recordedOf (tr : List StepEvent) : List ℤ :=
  tr.filterMap (fun e => match e with
    | StepEvent.recorded s => some s
    | _ => none)

/-- Pools observed by the failover detector, in trace order. -/
def failoverObsOf (tr : List StepEvent) : List (List Char) :=
  tr.filterMap (fun e => match e with
    | StepEvent.failoverCheck p => some p
    | _ => none)

/-- Parsed statuses of the lines that match LOG_PATTERN, in arrival order. -/
def matchedStatuses (lines : List (ℚ × List Char)) : List ℤ :=
  lines.filterMap (fun tl =>
    match LOG_PATTERN_search tl.2 with
    | some (_, _, s) => some (parsedStatus s)
    | none => none)

/-- Pools of the matching lines whose pool is valid (truthy and not the
sentinel), in arrival order. -/
def matchedValidPools (lines : List (ℚ × List Char)) : List (List Char) :=
  lines.filterMap (fun tl =>
    match LOG_PATTERN_search tl.2 with
    | some (p, _, _) => if p ≠ [] ∧ p ≠ ['-'] then some p else none
    | none => none)

/-- A small concrete configuration used to exercise the definitions. -/
def cfgDemo : Config :=
  { slack_webhook := "", error_threshold := 1, window_size := 2,
    cooldown := 10, maintenance_mode := false }

/-- The initial state of watcher.py (lines 30-33). -/
def stInit : WatcherState :=
  { last_pool := none, last_failover_alert := 0, last_error_alert := 0,
    request_window := [] }

/-- An auxiliary state with a tracked pool, used in concrete instantiations. -/
def stBlue : WatcherState :=
  { last_pool := some (strChars "blue"), last_failover_alert := 0,
    last_error_alert := 0, request_window := [] }

/-- C1: a window strictly shorter than the configured capacity never
signals a breach regardless of its contents; a window that has reached
capacity has rate exactly `100 * errorsIn / capacity` and signals a
breach iff that rate strictly exceeds the threshold; and
`check_error_rate` fires exactly when the breach condition holds and the
cooldown gate passes. -/
theorem C1_check_breach_spec (cfg : Config) (w : List ℤ) :
    (w.length < cfg.window_size → check_breach cfg w = false)
    ∧ (w.length = cfg.window_size →
        errorRate w = 100 * (errorsIn w : ℚ) / (cfg.window_size : ℚ)
        ∧ (check_breach cfg w = true ↔
            cfg.error_threshold < 100 * (errorsIn w : ℚ) / (cfg.window_size : ℚ)))
    ∧ (∀ last now, (check_error_rate cfg w last now).triggered
        = (check_breach cfg w && decide (cfg.cooldown < now - last))) := by
  refine ⟨?_, ?_, ?_⟩
  · intro h; simp [check_breach, h]
  · intro h
    have hr : errorRate w = 100 * (errorsIn w : ℚ) / (cfg.window_size : ℚ) := by
      simp only [errorRate, h]; ring
    refine ⟨hr, ?_⟩
    rw [check_breach, if_neg (by omega), ← hr]
    simp
  · intro last now
    simp only [check_error_rate, check_breach]
    split_ifs <;> simp_all

/-- Concrete instantiation of C1 at a short and at a full window. -/
theorem C1_check_breach_spec_witness :
    (([500] : List ℤ).length < cfgDemo.window_size
      ∧ check_breach cfgDemo [500] = false)
    ∧ (([500, 200] : List ℤ).length = cfgDemo.window_size
      ∧ errorRate [500, 200] = 100 * (errorsIn [500, 200] : ℚ) / (cfgDemo.window_size : ℚ)
      ∧ (check_breach cfgDemo [500, 200] = true ↔
          cfgDemo.error_threshold < 100 * (errorsIn [500, 200] : ℚ) / (cfgDemo.window_size : ℚ))) :=
  ⟨⟨by decide, (C1_check_breach_spec cfgDemo [500]).1 (by decide)⟩,
   ⟨by decide, (C1_check_breach_spec cfgDemo [500, 200]).2.1 (by decide)⟩⟩

/-- C2: the first pool observation produces no failover event and no
dispatch; an observation equal to the tracked pool produces no event; an
observation differing from the tracked pool produces exactly the one
event `(old, new)`. -/
theorem C2_detect_failover_events (cfg : Config) (t now : ℚ) (p cur : List Char) :
    ((detect_failover cfg none t cur now).event = none
      ∧ (detect_failover cfg none t cur now).dispatched = false)
    ∧ (detect_failover cfg (some p) t p now).event = none
    ∧ (p ≠ cur → (detect_failover cfg (some p) t cur now).event = some (p, cur)) := by
  refine ⟨⟨rfl, rfl⟩, ?_, ?_⟩
  · simp [detect_failover]
  · intro h
    have h' : cur ≠ p := fun hc => h hc.symm
    simp only [detect_failover]
    rw [if_pos h']
    split <;> rfl

/-- Concrete instantiation of C2 at a differing pool observation. -/
theorem C2_detect_failover_events_witness :
    strChars "blue" ≠ strChars "green"
    ∧ (detect_failover cfgDemo (some (strChars "blue")) 0 (strChars "green") 20).event
        = some (strChars "blue", strChars "green") :=
  ⟨by decide,
   (C2_detect_failover_events cfgDemo 0 20 (strChars "blue")
     (strChars "green")).2.2 (by decide)⟩

/-- C7: `detect_failover` always updates the tracked pool to the
observed pool, whether or not the alert is dispatched; and
`process_log_line` never unsets a tracked pool. -/
theorem C7_current_pool_tracking (cfg : Config) (st : WatcherState)
    (t now now' : ℚ) (lp cur : List Char) (line : List Char) :
    (detect_failover cfg (some lp) t cur now).last_pool = some cur
    ∧ (detect_failover cfg none t cur now).last_pool = some cur
    ∧ (st.last_pool.isSome = true →
        ((process_log_line cfg st now' line).1.last_pool).isSome = true) := by
  refine ⟨?_, rfl, ?_⟩
  · simp only [detect_failover]
    by_cases h : cur = lp
    · subst h; simp
    · rw [if_pos h]
      split <;> rfl
  · intro h
    cases hs : LOG_PATTERN_search line with
    | none => simpa [process_log_line, hs] using h
    | some g =>
      obtain ⟨p, r, s⟩ := g
      by_cases hv : p ≠ [] ∧ p ≠ ['-']
      · simp only [process_log_line, hs]
        rw [if_pos hv]
        cases hlp : st.last_pool with
        | none => simp [detect_failover]
        | some q =>
          simp only [detect_failover]
          split
          · split <;> rfl
          · rfl
      · simp only [process_log_line, hs]
        rw [if_neg hv]
        exact h

/-- Concrete instantiation of C7 on a state that tracks a pool. -/
theorem C7_current_pool_tracking_witness :
    stBlue.last_pool.isSome = true
    ∧ ((process_log_line cfgDemo stBlue 0
        (strChars "pool=green release=v2 upstream_status=200")).1.last_pool).isSome = true :=
  ⟨by decide,
   (C7_current_pool_tracking cfgDemo stBlue 0 0 0 (strChars "blue") (strChars "green")
     (strChars "pool=green release=v2 upstream_status=200")).2.2 (by decide)⟩

/-- C8: with an empty webhook or maintenance mode on, a triggered alert
never reaches the sink, while the cooldown timestamps and the trigger
decisions are exactly those of a configuration that can dispatch. -/
theorem C8_suppressed_sink_cooldown (cfg : Config) (u : String) (m : Bool)
    (w : List ℤ) (le now t : ℚ) (lp cur : List Char)
    (h : cfg.slack_webhook = "" ∨ cfg.maintenance_mode = true) :
    send_slack_alert cfg = false
    ∧ (check_error_rate cfg w le now).sink_reached = false
    ∧ (check_error_rate cfg w le now).last_error_alert
        = (check_error_rate { cfg with slack_webhook := u, maintenance_mode := m }
            w le now).last_error_alert
    ∧ (check_error_rate cfg w le now).triggered
        = (check_error_rate { cfg with slack_webhook := u, maintenance_mode := m }
            w le now).triggered
    ∧ (detect_failover cfg (some lp) t cur now).sink_reached = false
    ∧ (detect_failover cfg (some lp) t cur now).last_failover_alert
        = (detect_failover { cfg with slack_webhook := u, maintenance_mode := m }
            (some lp) t cur now).last_failover_alert := by
  obtain ⟨wb, th, ws, cd, mm⟩ := cfg
  have hsend : send_slack_alert (Config.mk wb th ws cd mm) = false := by
    rcases h with h | h <;> simp_all [send_slack_alert]
  refine ⟨hsend, ?_, ?_, ?_, ?_, ?_⟩ <;>
    simp only [check_error_rate, detect_failover] <;>
    dsimp only <;> split_ifs <;> simp [hsend]

/-- Concrete instantiation of C8 with the unconfigured-webhook
configuration. -/
theorem C8_suppressed_sink_cooldown_witness :
    (cfgDemo.slack_webhook = "" ∨ cfgDemo.maintenance_mode = true)
    ∧ send_slack_alert cfgDemo = false
    ∧ (check_error_rate cfgDemo [500, 500] 0 100).sink_reached = false :=
  ⟨Or.inl rfl,
   (C8_suppressed_sink_cooldown cfgDemo "https://example" false [500, 500] 0 100 0
     (strChars "blue") (strChars "green") (Or.inl rfl)).1,
   (C8_suppressed_sink_cooldown cfgDemo "https://example" false [500, 500] 0 100 0
     (strChars "blue") (strChars "green") (Or.inl rfl)).2.1⟩

/-- Folding `dequeAppend` over inputs that fit below capacity just
appends them. -/
theorem dequeAppend_fill (cap : ℕ) (xs : List ℤ) :
    ∀ w : List ℤ, w.length + xs.length ≤ cap →
      List.foldl (dequeAppend cap) w xs = w ++ xs := by
  induction xs with
  | nil => intro w _; simp
  | cons x rest ih =>
    intro w h
    simp only [List.length_cons] at h
    have hlen : (w ++ [x]).length = w.length + 1 := by simp
    have hstep : dequeAppend cap w x = w ++ [x] := by
      simp only [dequeAppend]
      rw [hlen, if_neg (by omega)]
    rw [List.foldl_cons, hstep, ih (w ++ [x]) (by rw [hlen]; omega)]
    simp

/-- C9: an insertion never grows the window beyond capacity; capacity + 1
insertions into an empty window keep exactly the inputs after the first
(the oldest is evicted, FIFO); the newest inserted entry is present. -/
theorem C9_window_fifo (cap : ℕ) (w : List ℤ) (s : ℤ) (xs : List ℤ) :
    (w.length ≤ cap → (dequeAppend cap w s).length ≤ cap)
    ∧ (xs.length = cap + 1 →
        List.foldl (dequeAppend cap) [] xs = xs.drop 1)
    ∧ (0 < cap → s ∈ dequeAppend cap w s) := by
  refine ⟨?_, ?_, ?_⟩
  · intro h
    simp only [dequeAppend]
    split
    next hlt =>
      simp only [List.length_drop, List.length_append, List.length_cons,
        List.length_nil] at *
      omega
    next hge =>
      simp only [List.length_append, List.length_cons, List.length_nil] at *
      omega
  · intro h
    cases xs using List.reverseRecOn with
    | nil => simp at h
    | append_singleton ys z =>
      have hys : ys.length = cap := by
        simp only [List.length_append, List.length_cons, List.length_nil] at h
        omega
      rw [List.foldl_append, List.foldl_cons, List.foldl_nil,
        dequeAppend_fill cap ys [] (by simp [hys])]
      simp only [List.nil_append, dequeAppend]
      have hlen : (ys ++ [z]).length = cap + 1 := by simp [hys]
      rw [hlen, if_pos (by omega)]
      congr 1
      omega
  · intro hcap
    simp only [dequeAppend]
    split
    next hlt =>
      have hle : (w ++ [s]).length - cap ≤ w.length := by
        simp only [List.length_append, List.length_cons, List.length_nil]
        omega
      rw [List.drop_append_of_le_length hle]
      exact List.mem_append_right _ (by simp)
    next hge => simp

/-- Concrete instantiation of C9 with capacity 2 and three insertions. -/
theorem C9_window_fifo_witness :
    (([1] : List ℤ).length ≤ 2 ∧ (dequeAppend 2 [1] 9).length ≤ 2)
    ∧ (([3, 4, 5] : List ℤ).length = 2 + 1
        ∧ List.foldl (dequeAppend 2) [] [3, 4, 5] = ([3, 4, 5] : List ℤ).drop 1)
    ∧ (0 < 2 ∧ (9 : ℤ) ∈ dequeAppend 2 [1] 9) :=
  ⟨⟨by decide, (C9_window_fifo 2 [1] 9 [3, 4, 5]).1 (by decide)⟩,
   ⟨by decide, (C9_window_fifo 2 [1] 9 [3, 4, 5]).2.1 (by decide)⟩,
   ⟨by decide, (C9_window_fifo 2 [1] 9 [3, 4, 5]).2.2 (by decide)⟩⟩


/-- C3: a dispatch of either category happens only strictly beyond the
cooldown from the stored timestamp and sets that timestamp to the
trigger time; a second trigger of the same category within the cooldown
never dispatches, while a second trigger strictly beyond it dispatches;
and the two categories use independent timers (the failover timestamp
after a processing step does not depend on the error timestamp, and
conversely). -/
theorem C3_cooldown_policy (cfg : Config) (w1 w2 : List ℤ)
    (last t1 t2 tf : ℚ) (p cur cur2 : List Char) (st : WatcherState)
    (a b a' b' : ℚ) (q q' : Option (List Char)) (now : ℚ) (line : List Char)
    (hA : (check_error_rate cfg w1 last t1).triggered = true)
    (hB : (detect_failover cfg (some p) tf cur t1).dispatched = true) :
    ((check_error_rate cfg w1 last t1).last_error_alert = t1
      ∧ cfg.cooldown < t1 - last)
    ∧ (t2 - t1 ≤ cfg.cooldown →
        (check_error_rate cfg w2 t1 t2).triggered = false)
    ∧ (cfg.cooldown < t2 - t1 → check_breach cfg w2 = true →
        (check_error_rate cfg w2 t1 t2).triggered = true
        ∧ (check_error_rate cfg w2 t1 t2).last_error_alert = t2)
    ∧ ((detect_failover cfg (some p) tf cur t1).last_failover_alert = t1
      ∧ cfg.cooldown < t1 - tf)
    ∧ (t2 - t1 ≤ cfg.cooldown →
        (detect_failover cfg (some cur) t1 cur2 t2).dispatched = false)
    ∧ (cfg.cooldown < t2 - t1 → cur2 ≠ cur →
        (detect_failover cfg (some cur) t1 cur2 t2).dispatched = true)
    ∧ ((process_log_line cfg { st with last_error_alert := a } now line).1.last_failover_alert
        = (process_log_line cfg { st with last_error_alert := b } now line).1.last_failover_alert)
    ∧ ((process_log_line cfg { st with last_pool := q, last_failover_alert := a' } now line).1.last_error_alert
        = (process_log_line cfg { st with last_pool := q', last_failover_alert := b' } now line).1.last_error_alert) := by
  have hfacts : ¬ w1.length < cfg.window_size
      ∧ cfg.error_threshold < errorRate w1 ∧ cfg.cooldown < t1 - last := by
    simp only [check_error_rate] at hA
    split_ifs at hA with h1 h2 h3
    exact ⟨h1, h2, h3⟩
  have hBfacts : (cur ≠ p) ∧ cfg.cooldown < t1 - tf := by
    simp only [detect_failover] at hB
    split_ifs at hB with h4 h5
    exact ⟨h4, h5⟩
  obtain ⟨h1, h2, h3⟩ := hfacts
  obtain ⟨h4, h5⟩ := hBfacts
  refine ⟨⟨?_, h3⟩, ?_, ?_, ⟨?_, h5⟩, ?_, ?_, ?_, ?_⟩
  · simp [check_error_rate, h1, h2, h3]
  · intro h
    simp only [check_error_rate]
    split_ifs with g1 g2 g3
    · rfl
    · exact absurd g3 (not_lt.mpr h)
    · rfl
    · rfl
  · intro hcd hbr
    rw [check_breach] at hbr
    split_ifs at hbr with g1
    have g2 := of_decide_eq_true hbr
    refine ⟨?_, ?_⟩ <;> simp [check_error_rate, g1, g2, hcd]
  · simp [detect_failover, h4, h5]
  · intro h
    simp only [detect_failover]
    split_ifs with g1 g2
    · exact absurd g2 (not_lt.mpr h)
    · rfl
    · rfl
  · intro g hne
    simp [detect_failover, hne, g]
  · cases hs : LOG_PATTERN_search line with
    | none => simp [process_log_line, hs]
    | some g =>
      obtain ⟨pp, rr, ss⟩ := g
      simp only [process_log_line, hs]
      by_cases hv : pp ≠ [] ∧ pp ≠ ['-']
      · rw [if_pos hv, if_pos hv]
      · rw [if_neg hv, if_neg hv]
  · cases hs : LOG_PATTERN_search line with
    | none => simp [process_log_line, hs]
    | some g =>
      obtain ⟨pp, rr, ss⟩ := g
      simp only [process_log_line, hs]
      by_cases hv : pp ≠ [] ∧ pp ≠ ['-']
      · rw [if_pos hv, if_pos hv]
      · rw [if_neg hv, if_neg hv]

/-- Concrete instantiation of C3: with cooldown 10, a breaching window
dispatches at time 0, a retrigger at time 5 is suppressed, a retrigger
at time 50 dispatches; same for two failovers. -/
theorem C3_cooldown_policy_witness :
    ((check_error_rate cfgDemo [500, 500] (-100) 0).triggered = true
      ∧ (detect_failover cfgDemo (some (strChars "blue")) (-100) (strChars "green") 0).dispatched = true)
    ∧ (check_error_rate cfgDemo [500, 500] 0 5).triggered = false
    ∧ ((check_error_rate cfgDemo [500, 500] 0 50).triggered = true
      ∧ (check_error_rate cfgDemo [500, 500] 0 50).last_error_alert = 50)
    ∧ (detect_failover cfgDemo (some (strChars "green")) 0 (strChars "blue") 5).dispatched = false
    ∧ (detect_failover cfgDemo (some (strChars "green")) 0 (strChars "blue") 50).dispatched = true :=
  have hA : (check_error_rate cfgDemo [500, 500] (-100) 0).triggered = true := by
    norm_num [check_error_rate, cfgDemo, errorRate, errorsIn]
  have hB : (detect_failover cfgDemo (some (strChars "blue")) (-100) (strChars "green") 0).dispatched = true := by
    simp only [detect_failover]
    rw [if_pos (by decide), if_pos (by norm_num [cfgDemo])]
  ⟨⟨hA, hB⟩,
   (C3_cooldown_policy cfgDemo [500, 500] [500, 500] (-100) 0 5 (-100)
     (strChars "blue") (strChars "green") (strChars "blue") stInit 0 0 0 0 none none 0
     [] hA hB).2.1 (by norm_num [cfgDemo]),
   (C3_cooldown_policy cfgDemo [500, 500] [500, 500] (-100) 0 50 (-100)
     (strChars "blue") (strChars "green") (strChars "blue") stInit 0 0 0 0 none none 0
     [] hA hB).2.2.1 (by norm_num [cfgDemo])
     (by norm_num [check_breach, cfgDemo, errorRate, errorsIn]),
   (C3_cooldown_policy cfgDemo [500, 500] [500, 500] (-100) 0 5 (-100)
     (strChars "blue") (strChars "green") (strChars "blue") stInit 0 0 0 0 none none 0
     [] hA hB).2.2.2.2.1 (by norm_num [cfgDemo]),
   (C3_cooldown_policy cfgDemo [500, 500] [500, 500] (-100) 0 50 (-100)
     (strChars "blue") (strChars "green") (strChars "blue") stInit 0 0 0 0 none none 0
     [] hA hB).2.2.2.2.2.1 (by norm_num [cfgDemo]) (by decide)⟩

/-- A successful literal match decomposes the input. -/
theorem dropLit_eq {lit : String} {l l' : List Char}
    (h : dropLit lit l = some l') : l = strChars lit ++ l' := by
  simp only [dropLit] at h
  split_ifs at h with hp
  cases h
  conv_lhs => rw [← List.take_append_drop (strChars lit).length l]
  rw [hp]

/-- A successful `\S+` match decomposes the input into a nonempty
non-whitespace token and the rest. -/
theorem takeTok_eq {l t rest : List Char} (h : takeTok l = some (t, rest)) :
    l = t ++ rest ∧ t ≠ [] ∧ ∀ c ∈ t, isSpaceChar c = false := by
  simp only [takeTok] at h
  split_ifs at h with hp
  cases h
  refine ⟨(List.takeWhile_append_dropWhile _ _).symm, hp, ?_⟩
  intro c hc
  simpa using List.mem_takeWhile_imp hc

/-- A successful `\s+` match decomposes the input into a nonempty
whitespace run and the rest. -/
theorem takeWs_eq {l t rest : List Char} (h : takeWs l = some (t, rest)) :
    l = t ++ rest ∧ t ≠ [] ∧ ∀ c ∈ t, isSpaceChar c = true := by
  simp only [takeWs] at h
  split_ifs at h with hp
  cases h
  refine ⟨(List.takeWhile_append_dropWhile _ _).symm, hp, ?_⟩
  intro c hc
  exact List.mem_takeWhile_imp hc

/-- A match of LOG_PATTERN at a fixed position decomposes the input into
the three `key=value` tokens in order, separated by whitespace runs. -/
theorem matchAt_decomp {l p r s : List Char} (h : matchAt l = some (p, r, s)) :
    (p ≠ [] ∧ ∀ c ∈ p, isSpaceChar c = false)
    ∧ (r ≠ [] ∧ ∀ c ∈ r, isSpaceChar c = false)
    ∧ (s ≠ [] ∧ ∀ c ∈ s, isSpaceChar c = false)
    ∧ ∃ ws1 ws2 suf,
        (ws1 ≠ [] ∧ ∀ c ∈ ws1, isSpaceChar c = true)
        ∧ (ws2 ≠ [] ∧ ∀ c ∈ ws2, isSpaceChar c = true)
        ∧ l = strChars "pool=" ++ p ++ ws1 ++ strChars "release=" ++ r ++ ws2
            ++ strChars "upstream_status=" ++ s ++ suf := by
  unfold matchAt at h
  split at h
  next => exact Option.noConfusion h
  next l1 h1 =>
  split at h
  next => exact Option.noConfusion h
  next p' l2 h2 =>
  split at h
  next => exact Option.noConfusion h
  next ws1 l3 h3 =>
  split at h
  next => exact Option.noConfusion h
  next l4 h4 =>
  split at h
  next => exact Option.noConfusion h
  next r' l5 h5 =>
  split at h
  next => exact Option.noConfusion h
  next ws2 l6 h6 =>
  split at h
  next => exact Option.noConfusion h
  next l7 h7 =>
  split at h
  next => exact Option.noConfusion h
  next s' suf h8 =>
  cases h
  obtain ⟨e1, hbne, hbns⟩ := takeTok_eq h2
  obtain ⟨e2, hcne, hcs⟩ := takeWs_eq h3
  obtain ⟨e3, hene, hens⟩ := takeTok_eq h5
  obtain ⟨e4, hfne, hfs⟩ := takeWs_eq h6
  obtain ⟨e5, hhne, hhns⟩ := takeTok_eq h8
  refine ⟨⟨hbne, hbns⟩, ⟨hene, hens⟩, ⟨hhne, hhns⟩,
    ws1, ws2, suf, ⟨hcne, hcs⟩, ⟨hfne, hfs⟩, ?_⟩
  rw [dropLit_eq h1, e1, e2, dropLit_eq h4, e3, e4, dropLit_eq h7, e5]
  simp [List.append_assoc]

/-- A successful search decomposes the line: some prefix, then the three
`key=value` tokens in order, separated by whitespace runs. -/
theorem LOG_PATTERN_search_decomp {l p r s : List Char}
    (h : LOG_PATTERN_search l = some (p, r, s)) :
    (p ≠ [] ∧ ∀ c ∈ p, isSpaceChar c = false)
    ∧ (r ≠ [] ∧ ∀ c ∈ r, isSpaceChar c = false)
    ∧ (s ≠ [] ∧ ∀ c ∈ s, isSpaceChar c = false)
    ∧ ∃ pre ws1 ws2 suf,
        (ws1 ≠ [] ∧ ∀ c ∈ ws1, isSpaceChar c = true)
        ∧ (ws2 ≠ [] ∧ ∀ c ∈ ws2, isSpaceChar c = true)
        ∧ l = pre ++ strChars "pool=" ++ p ++ ws1 ++ strChars "release=" ++ r ++ ws2
            ++ strChars "upstream_status=" ++ s ++ suf := by
  induction l with
  | nil => simp [LOG_PATTERN_search] at h
  | cons c cs ih =>
    rw [LOG_PATTERN_search] at h
    split at h
    next g hm =>
      cases h
      obtain ⟨hp, hr, hs, ws1, ws2, suf, hws1, hws2, heq⟩ := matchAt_decomp hm
      exact ⟨hp, hr, hs, [], ws1, ws2, suf, hws1, hws2, by simpa using heq⟩
    next hm =>
      obtain ⟨hp, hr, hs, pre, ws1, ws2, suf, hws1, hws2, heq⟩ := ih h
      refine ⟨hp, hr, hs, c :: pre, ws1, ws2, suf, hws1, hws2, ?_⟩
      simp only [List.cons_append]
      rw [← heq]

/-- C10: a record is produced only when the line contains the tokens
`pool=<value>`, `release=<value>`, `upstream_status=<value>` in that
order, whitespace-separated; unmatched lines — in particular any line
with no `release=` token — are silently ignored (state unchanged, no
step performed); and the release value is never used: two matching lines
agreeing on pool and status groups are processed identically. -/
theorem C10_pattern_requirements (cfg : Config) (st : WatcherState) (now : ℚ)
    (line line' : List Char) :
    (∀ p r s, LOG_PATTERN_search line = some (p, r, s) →
      ∃ pre ws1 ws2 suf,
        (ws1 ≠ [] ∧ ∀ c ∈ ws1, isSpaceChar c = true)
        ∧ (ws2 ≠ [] ∧ ∀ c ∈ ws2, isSpaceChar c = true)
        ∧ line = pre ++ strChars "pool=" ++ p ++ ws1 ++ strChars "release=" ++ r
            ++ ws2 ++ strChars "upstream_status=" ++ s ++ suf)
    ∧ (LOG_PATTERN_search line = none →
        process_log_line cfg st now line = (st, []))
    ∧ ((¬ ∃ a b, line = a ++ strChars "release=" ++ b) →
        process_log_line cfg st now line = (st, []))
    ∧ (∀ p r1 r2 s, LOG_PATTERN_search line = some (p, r1, s) →
        LOG_PATTERN_search line' = some (p, r2, s) →
        process_log_line cfg st now line = process_log_line cfg st now line') := by
  refine ⟨?_, ?_, ?_, ?_⟩
  · intro p r s h
    obtain ⟨_, _, _, pre, ws1, ws2, suf, hws1, hws2, heq⟩ := LOG_PATTERN_search_decomp h
    exact ⟨pre, ws1, ws2, suf, hws1, hws2, heq⟩
  · intro h
    simp [process_log_line, h]
  · intro hno
    cases hs : LOG_PATTERN_search line with
    | none => simp [process_log_line, hs]
    | some g =>
      obtain ⟨p, r, s⟩ := g
      obtain ⟨_, _, _, pre, ws1, ws2, suf, _, _, heq⟩ := LOG_PATTERN_search_decomp hs
      exfalso
      refine hno ⟨pre ++ strChars "pool=" ++ p ++ ws1,
        r ++ ws2 ++ strChars "upstream_status=" ++ s ++ suf, ?_⟩
      rw [heq]
      simp [List.append_assoc]
  · intro p r1 r2 s h h'
    simp only [process_log_line, h, h']

/-- Concrete instantiation of C10: an unmatched line changes nothing,
and the release group does not influence processing. -/
theorem C10_pattern_requirements_witness :
    (LOG_PATTERN_search (strChars "10.0.0.1 GET /index 200") = none
      ∧ process_log_line cfgDemo stInit 0 (strChars "10.0.0.1 GET /index 200")
          = (stInit, []))
    ∧ process_log_line cfgDemo stInit 0
        (strChars "pool=a release=b upstream_status=200")
      = process_log_line cfgDemo stInit 0
        (strChars "pool=a release=c upstream_status=200") :=
  ⟨⟨by decide,
    (C10_pattern_requirements cfgDemo stInit 0 (strChars "10.0.0.1 GET /index 200")
      []).2.1 (by decide)⟩,
   (C10_pattern_requirements cfgDemo stInit 0
      (strChars "pool=a release=b upstream_status=200")
      (strChars "pool=a release=c upstream_status=200")).2.2.2
      (strChars "a") (strChars "b") (strChars "c") (strChars "200")
      (by decide) (by decide)⟩

/-- C4 (code evaluation): on the spec's Scenario D line, the regex token
`\S+` stops the upstream_status group at the first space, so the group
is `502` and the parsed status is 502, not 200; the recorded status is
502.  The split-on-colon logic yields the last sub-value only for an
unspaced token. -/
theorem C4_spaced_status_eval :
    LOG_PATTERN_search
        (strChars "pool=blue release=v1 upstream_status=502 : 502 : 200")
      = some (strChars "blue", strChars "v1", strChars "502")
    ∧ parsedStatus (strChars "502") = 502
    ∧ (502 : ℤ) ≠ 200
    ∧ recordedOf (process_log_line cfgDemo stInit 0
        (strChars "pool=blue release=v1 upstream_status=502 : 502 : 200")).2 = [502]
    ∧ parsedStatus (strChars "502:502:200") = 200 := by
  exact ⟨by decide, by decide, by decide, by decide, by decide⟩

/-- C5 counterexample: the spec's Scenario E line has no release token,
so LOG_PATTERN does not match and the line is ignored whole: the state
is unchanged — in particular the status 500 is NOT appended to the
window — and no processing step runs. -/
theorem C5_sentinel_line_counterexample :
    process_log_line cfgDemo stInit 0 (strChars "pool=- upstream_status=500")
      = (stInit, [])
    ∧ (process_log_line cfgDemo stInit 0
        (strChars "pool=- upstream_status=500")).1.request_window = []
    ∧ LOG_PATTERN_search (strChars "pool=- upstream_status=500") = none := by
  exact ⟨rfl, rfl, by decide⟩

/-- C5 amended: for a line that LOG_PATTERN does match and whose pool
group is the sentinel `-`, the parsed status is appended to the window
and the error-rate check runs, but no failover check is performed and
the failover state is untouched. -/
theorem C5_sentinel_pool_amended (cfg : Config) (st : WatcherState) (now : ℚ)
    (line r s : List Char)
    (h : LOG_PATTERN_search line = some (['-'], r, s)) :
    (process_log_line cfg st now line).1.request_window
      = dequeAppend cfg.window_size st.request_window (parsedStatus s)
    ∧ (process_log_line cfg st now line).2
      = [StepEvent.parsed ['-'] (parsedStatus s),
         StepEvent.recorded (parsedStatus s), StepEvent.errorRateCheck]
    ∧ (process_log_line cfg st now line).1.last_pool = st.last_pool
    ∧ (process_log_line cfg st now line).1.last_failover_alert
        = st.last_failover_alert := by
  have hv : ¬ ((['-'] : List Char) ≠ [] ∧ (['-'] : List Char) ≠ ['-']) := by simp
  refine ⟨?_, ?_, ?_, ?_⟩ <;>
    simp only [process_log_line, h] <;> rw [if_neg hv]

/-- Concrete instantiation of C5 (amended) on a full matching line with
the sentinel pool. -/
theorem C5_sentinel_pool_amended_witness :
    LOG_PATTERN_search (strChars "pool=- release=v1 upstream_status=500")
      = some (['-'], strChars "v1", strChars "500")
    ∧ (process_log_line cfgDemo stInit 0
        (strChars "pool=- release=v1 upstream_status=500")).1.request_window
      = dequeAppend cfgDemo.window_size stInit.request_window
          (parsedStatus (strChars "500"))
    ∧ (process_log_line cfgDemo stInit 0
        (strChars "pool=- release=v1 upstream_status=500")).1.last_pool
      = stInit.last_pool :=
  ⟨by decide,
   (C5_sentinel_pool_amended cfgDemo stInit 0
     (strChars "pool=- release=v1 upstream_status=500")
     (strChars "v1") (strChars "500") (by decide)).1,
   (C5_sentinel_pool_amended cfgDemo stInit 0
     (strChars "pool=- release=v1 upstream_status=500")
     (strChars "v1") (strChars "500") (by decide)).2.2.1⟩

/-- Recorded statuses distribute over trace concatenation. -/
theorem recordedOf_append (a b : List StepEvent) :
    recordedOf (a ++ b) = recordedOf a ++ recordedOf b := by
  simp [recordedOf]

/-- Failover observations distribute over trace concatenation. -/
theorem failoverObsOf_append (a b : List StepEvent) :
    failoverObsOf (a ++ b) = failoverObsOf a ++ failoverObsOf b := by
  simp [failoverObsOf]

/-- One processing step records exactly the matched status of its line. -/
theorem process_recorded (cfg : Config) (st : WatcherState) (now : ℚ)
    (line : List Char) :
    recordedOf (process_log_line cfg st now line).2
      = matchedStatuses [(now, line)] := by
  cases hs : LOG_PATTERN_search line with
  | none => simp [process_log_line, hs, recordedOf, matchedStatuses]
  | some g =>
    obtain ⟨p, r, s⟩ := g
    simp only [process_log_line, hs]
    by_cases hv : p ≠ [] ∧ p ≠ ['-'] <;>
      simp [hv, recordedOf, matchedStatuses, hs]

/-- One processing step feeds the failover detector exactly the matched
valid pool of its line (if any). -/
theorem process_failoverObs (cfg : Config) (st : WatcherState) (now : ℚ)
    (line : List Char) :
    failoverObsOf (process_log_line cfg st now line).2
      = matchedValidPools [(now, line)] := by
  cases hs : LOG_PATTERN_search line with
  | none => simp [process_log_line, hs, failoverObsOf, matchedValidPools]
  | some g =>
    obtain ⟨p, r, s⟩ := g
    simp only [process_log_line, hs]
    by_cases hv : p ≠ [] ∧ p ≠ ['-'] <;>
      simp [hv, failoverObsOf, matchedValidPools, hs]

/-- Splitting the matched statuses of a run at the first line. -/
theorem matchedStatuses_cons (tl : ℚ × List Char) (rest : List (ℚ × List Char)) :
    matchedStatuses (tl :: rest) = matchedStatuses [tl] ++ matchedStatuses rest := by
  cases hs : LOG_PATTERN_search tl.2 with
  | none => simp [matchedStatuses, List.filterMap_cons, hs]
  | some g =>
    obtain ⟨p, r, s⟩ := g
    simp [matchedStatuses, List.filterMap_cons, hs]

/-- Splitting the matched valid pools of a run at the first line. -/
theorem matchedValidPools_cons (tl : ℚ × List Char) (rest : List (ℚ × List Char)) :
    matchedValidPools (tl :: rest)
      = matchedValidPools [tl] ++ matchedValidPools rest := by
  cases hs : LOG_PATTERN_search tl.2 with
  | none => simp [matchedValidPools, List.filterMap_cons, hs]
  | some g =>
    obtain ⟨p, r, s⟩ := g
    by_cases hv : p ≠ [] ∧ p ≠ ['-'] <;>
      simp [matchedValidPools, List.filterMap_cons, hs, hv]

/-- Over any finite run, the statuses recorded into the window are
exactly the parsed statuses of the matching lines, in arrival order, and
the pools fed to the failover detector are exactly the valid pools of
the matching lines, in arrival order. -/
theorem runWatcher_exactly_once (cfg : Config) :
    ∀ (lines : List (ℚ × List Char)) (st : WatcherState),
      recordedOf (runWatcher cfg st lines).2 = matchedStatuses lines
      ∧ failoverObsOf (runWatcher cfg st lines).2 = matchedValidPools lines := by
  intro lines
  induction lines with
  | nil => intro st; exact ⟨rfl, rfl⟩
  | cons tl rest ih =>
    intro st
    obtain ⟨t, line⟩ := tl
    simp only [runWatcher]
    constructor
    · rw [recordedOf_append, process_recorded, (ih _).1]
      exact (matchedStatuses_cons _ _).symm
    · rw [failoverObsOf_append, process_failoverObs, (ih _).2]
      exact (matchedValidPools_cons _ _).symm

/-- C6 counterexample: on a matching valid-pool line the driver records
the status into the window BEFORE running the failover check; the trace
is not the claimed parse, failover check, window record, error-rate
check order. -/
theorem C6_order_counterexample :
    (process_log_line cfgDemo stInit 0
        (strChars "pool=blue release=v1 upstream_status=503")).2
      = [StepEvent.parsed (strChars "blue") 503, StepEvent.recorded 503,
         StepEvent.failoverCheck (strChars "blue"), StepEvent.errorRateCheck]
    ∧ (process_log_line cfgDemo stInit 0
        (strChars "pool=blue release=v1 upstream_status=503")).2
      ≠ [StepEvent.parsed (strChars "blue") 503,
         StepEvent.failoverCheck (strChars "blue"),
         StepEvent.recorded 503, StepEvent.errorRateCheck] := by
  exact ⟨by decide, by decide⟩

/-- C6 amended: for each line the driver performs, in strict order,
parse, then window record, then (when a valid pool is present) the
failover check, then the error-rate check; unmatched lines perform
nothing; and over any run both the window and the failover detector
observe every matched record exactly once, in arrival order, with none
skipped or duplicated. -/
theorem C6_stream_driver_order (cfg : Config) (st : WatcherState) (now : ℚ)
    (line : List Char) (p r s : List Char) (lines : List (ℚ × List Char)) :
    (LOG_PATTERN_search line = some (p, r, s) →
      (process_log_line cfg st now line).2
        = if p ≠ [] ∧ p ≠ ['-'] then
            [StepEvent.parsed p (parsedStatus s),
             StepEvent.recorded (parsedStatus s),
             StepEvent.failoverCheck p, StepEvent.errorRateCheck]
          else
            [StepEvent.parsed p (parsedStatus s),
             StepEvent.recorded (parsedStatus s), StepEvent.errorRateCheck])
    ∧ (LOG_PATTERN_search line = none →
        process_log_line cfg st now line = (st, []))
    ∧ recordedOf (runWatcher cfg st lines).2 = matchedStatuses lines
    ∧ failoverObsOf (runWatcher cfg st lines).2 = matchedValidPools lines := by
  refine ⟨?_, ?_, (runWatcher_exactly_once cfg lines st).1,
    (runWatcher_exactly_once cfg lines st).2⟩
  · intro h
    simp only [process_log_line, h]
    by_cases hv : p ≠ [] ∧ p ≠ ['-']
    · rw [if_pos hv, if_pos hv]
    · rw [if_neg hv, if_neg hv]
  · intro h
    simp [process_log_line, h]

/-- Concrete instantiation of C6 (amended) on a matching valid-pool line. -/
theorem C6_stream_driver_order_witness :
    (process_log_line cfgDemo stInit 0
        (strChars "pool=blue release=v1 upstream_status=503")).2
      = if strChars "blue" ≠ [] ∧ strChars "blue" ≠ ['-'] then
          [StepEvent.parsed (strChars "blue") (parsedStatus (strChars "503")),
           StepEvent.recorded (parsedStatus (strChars "503")),
           StepEvent.failoverCheck (strChars "blue"), StepEvent.errorRateCheck]
        else
          [StepEvent.parsed (strChars "blue") (parsedStatus (strChars "503")),
           StepEvent.recorded (parsedStatus (strChars "503")),
           StepEvent.errorRateCheck] :=
  (C6_stream_driver_order cfgDemo stInit 0
    (strChars "pool=blue release=v1 upstream_status=503")
    (strChars "blue") (strChars "v1") (strChars "503") []).1 (by decide)
